import Mathlib

/-!
# Verification of the maze generation and persistence script

This file is a shallow embedding, in Lean 4, of `src/maze/main.py` from the
`robotic-sim-tools` repository, together with theorems settling the frozen
claims about it.

Modelling conventions:

* Python floats are modelled as exact rationals (`ℚ`); JSON serialization of
  numbers is therefore modelled as exact (the spec's "within serialization
  precision" collapses to equality).
* The process-wide random generator is modelled by an oracle `RandStream`
  holding one stream of naturals (for `random.randint` / `random.choice`
  draws) and one stream of rationals (for `random.uniform` draws), together
  with a cursor `RandPos` threaded through every operation.
  `random.randint(lo, hi)` is modelled as `lo + draw % (hi + 1 - lo)`, which
  bakes in the guaranteed range; `random.uniform(a, b)` is modelled as an
  arbitrary rational supplied by the stream (no claim below depends on the
  sampled value lying inside `[a, b]`).
* The external scene context (`ry.Config`) is modelled as the list of frames
  pushed into it; a frame carries exactly the data the script sets on it
  (name, shape, size, color, position), so it is represented by the same
  record as an `Obstacle`.
* Python's in-place field mutation is modelled by explicit state passing;
  fallible code (`KeyError` on a missing JSON key or on an unrecognized
  shape string) returns `Except LoadError`.  Python's partial mutation of
  `self` before an exception is not observable through any claim and is not
  modelled: a failing `load_maze` returns only the error.
* f-string interpolation of integers (`f"{name}_{unique_id}"`) is modelled
  with an executable decimal rendering `natStr` defined below.
-/

/-! ## Decimal rendering of naturals (for f-string interpolation) -/

/-- Fuel-driven decimal digit rendering; `fuel > n` suffices. -/
def natCharsAux : ℕ → ℕ → List Char
  | 0, _ => []
  | fuel + 1, n =>
    if n < 10 then [Nat.digitChar n]
    else natCharsAux fuel (n / 10) ++ [Nat.digitChar (n % 10)]

/-- The decimal digits of `n`, most significant first. -/
def natChars (n : ℕ) : List Char := natCharsAux (n + 1) n

/-- The decimal rendering of `n` as a string, as Python's `str`/f-string does. -/
def natStr (n : ℕ) : String := ⟨natChars n⟩

/-- Numeric value of a decimal digit character. -/
def charVal (ch : Char) : ℕ := ch.toNat - '0'.toNat

/-- Parse a digit list back to the natural it denotes. -/
def charsToNat (l : List Char) : ℕ := l.foldl (fun a ch => a * 10 + charVal ch) 0

theorem charsToNat_append_singleton (l : List Char) (c : Char) :
    charsToNat (l ++ [c]) = charsToNat l * 10 + charVal c := by
  simp [charsToNat]

theorem charVal_digitChar {d : ℕ} (h : d < 10) : charVal (Nat.digitChar d) = d := by
  interval_cases d <;> decide

theorem isDigit_digitChar {d : ℕ} (h : d < 10) : (Nat.digitChar d).isDigit = true := by
  interval_cases d <;> decide

theorem charsToNat_natCharsAux {fuel n : ℕ} (h : n < fuel) :
    charsToNat (natCharsAux fuel n) = n := by
  induction fuel generalizing n with
  | zero => omega
  | succ f ih =>
    by_cases h10 : n < 10
    · simp [natCharsAux, h10, charsToNat, charVal_digitChar h10]
    · have hdiv : n / 10 < n := Nat.div_lt_self (by omega) (by omega)
      have : n / 10 < f := by omega
      simp [natCharsAux, h10, charsToNat_append_singleton, ih this,
        charVal_digitChar (Nat.mod_lt n (by omega))]
      omega

theorem charsToNat_natChars (n : ℕ) : charsToNat (natChars n) = n :=
  charsToNat_natCharsAux (Nat.lt_succ_self n)

theorem natChars_inj {m n : ℕ} (h : natChars m = natChars n) : m = n := by
  have := charsToNat_natChars m
  rw [h, charsToNat_natChars] at this
  omega

theorem natCharsAux_digits {fuel n : ℕ} : ∀ ch ∈ natCharsAux fuel n, ch.isDigit = true := by
  induction fuel generalizing n with
  | zero => simp [natCharsAux]
  | succ f ih =>
    by_cases h10 : n < 10
    · simp [natCharsAux, h10, isDigit_digitChar h10]
    · simp only [natCharsAux, h10, if_false, List.mem_append, List.mem_singleton]
      rintro ch (hch | rfl)
      · exact ih ch hch
      · exact isDigit_digitChar (Nat.mod_lt n (by omega))

theorem natChars_digits (n : ℕ) : ∀ ch ∈ natChars n, ch.isDigit = true :=
  natCharsAux_digits

/-- In a string of the form `digits ++ '_' :: rest`, the leading digit run and
the rest are both determined: the first `'_'` delimits them. -/
theorem digit_run_split : ∀ {A B X Y : List Char},
    (∀ ch ∈ A, ch.isDigit = true) → (∀ ch ∈ B, ch.isDigit = true) →
    A ++ '_' :: X = B ++ '_' :: Y → A = B ∧ X = Y := by
  intro A
  induction A with
  | nil =>
    intro B X Y _ hB h
    cases B with
    | nil => simpa using h
    | cons b bs =>
      exfalso
      have hb : b = '_' := by simpa using (congrArg (·.headI) h).symm
      have := hB b (by simp)
      rw [hb] at this
      simp at this
  | cons a as ih =>
    intro B X Y hA hB h
    cases B with
    | nil =>
      exfalso
      have ha : a = '_' := by simpa using congrArg (·.headI) h
      have := hA a (by simp)
      rw [ha] at this
      simp at this
    | cons b bs =>
      simp only [List.cons_append, List.cons.injEq] at h
      obtain ⟨rfl, h2⟩ := h
      obtain ⟨h3, h4⟩ := ih (fun ch hch => hA ch (by simp [hch]))
        (fun ch hch => hB ch (by simp [hch])) h2
      exact ⟨by rw [h3], h4⟩

/-! ## Random stream oracle -/

/-- The oracle standing in for Python's process-wide `random` module: one
stream of naturals backing the integer-valued draws and one stream of
rationals backing `random.uniform`. -/
structure RandStream where
  nats : ℕ → ℕ
  rats : ℕ → ℚ

/-- Cursor into the two streams of a `RandStream`. -/
structure RandPos where
  n : ℕ
  q : ℕ
deriving DecidableEq

/-- `random.randint(lo, hi)`: an integer draw, guaranteed in `[lo, hi]`. -/
def randintDraw (s : RandStream) (p : RandPos) (lo hi : ℕ) : ℕ × RandPos :=
  (lo + s.nats p.n % (hi + 1 - lo), ⟨p.n + 1, p.q⟩)

/-- `random.uniform(a, b)`: a rational draw supplied by the stream.  The
bounds are kept in the signature for fidelity to the call sites; no claim
depends on the sampled value lying between them. -/
def uniformDraw (s : RandStream) (p : RandPos) (a b : ℚ) : ℚ × RandPos :=
  (s.rats p.q, ⟨p.n, p.q + 1⟩)

/-- `random.choice(options)` over a list of strings. -/
def choiceDraw (s : RandStream) (p : RandPos) (options : List String) : String × RandPos :=
  (options.getD (s.nats p.n % options.length) "", ⟨p.n + 1, p.q⟩)

/-! ## Data model: shapes, obstacles, the scene context -/

/-- The closed set of shape primitives the script uses (`ry.ST.ssBox` only). -/
inductive ShapeType where
  | ssBox
deriving DecidableEq

/-- `str(shape_type).split('.')[-1]` of the engine enum value. -/
def ShapeType.toStr : ShapeType → String
  | .ssBox => "ssBox"

/-- An obstacle as held by the script: the (suffixed) name plus the shape,
size, color and position pushed into the scene.  The Python object also
holds a reference to the scene config; here the config is threaded
explicitly. -/
structure Obstacle where
  name : String
  shape_type : ShapeType
  size : List ℚ
  color : List ℚ
  position : List ℚ
deriving DecidableEq

/-- The external scene context: the list of frames added so far.  A frame
carries exactly the data the script sets, so it is the same record as an
obstacle. -/
abbrev Config := List Obstacle

/-- `Obstacle.create_object`: adds the obstacle's frame to the configuration. -/
def Obstacle.create_object (o : Obstacle) (config : Config) : Config :=
  config ++ [o]

/-- `Obstacle.__init__`: draws a random 4-digit id, suffixes it to the name,
and pushes the frame into the scene. -/
def Obstacle.init (config : Config) (name : String) (shape_type : ShapeType)
    (size color position : List ℚ) (s : RandStream) (p : RandPos) :
    Obstacle × Config × RandPos :=
  let r := randintDraw s p 1000 9999
  let o : Obstacle := { name := name ++ "_" ++ natStr r.1, shape_type := shape_type,
                        size := size, color := color, position := position }
  (o, o.create_object config, r.2)

/-- `Obstacle.to_dict`: the serialized record, with the shape saved as a
string. -/
structure ObstacleRecord where
  name : String
  shape_type : String
  size : List ℚ
  color : List ℚ
  position : List ℚ
deriving DecidableEq

def Obstacle.to_dict (o : Obstacle) : ObstacleRecord :=
  { name := o.name, shape_type := o.shape_type.toStr, size := o.size,
    color := o.color, position := o.position }

/-- Errors a maze load can surface: a missing required key
(Python `KeyError` on the document) or a shape string outside the closed
lookup table (Python `KeyError` on `shape_type_mapping`, the spec's
`UnknownShapeKind`). -/
inductive LoadError where
  | keyError (key : String)
  | unknownShapeKind (shape : String)
deriving DecidableEq

/-- The closed lookup table from serialized shape strings back to shape
primitives; it has exactly one entry. -/
def shape_type_mapping : List (String × ShapeType) := [("ssBox", ShapeType.ssBox)]

/-- `Obstacle.from_dict`: reconstructs an obstacle from its serialized
record, failing when the shape string is not in the lookup table.  Note the
reconstruction goes through `Obstacle.init` and therefore draws and appends
a fresh random name suffix. -/
def Obstacle.from_dict (config : Config) (data : ObstacleRecord)
    (s : RandStream) (p : RandPos) : Except LoadError (Obstacle × Config × RandPos) :=
  match shape_type_mapping.lookup data.shape_type with
  | none => .error (.unknownShapeKind data.shape_type)
  | some st => .ok (Obstacle.init config data.name st data.size data.color data.position s p)

/-! ## The collision test -/

/-- Axis-aligned footprints `(minX, minY, maxX, maxY)`. -/
abbrev Rect := ℚ × ℚ × ℚ × ℚ

/-- `check_collision`: returns `true` iff the new wall's footprint strictly
overlaps some footprint in the list, by the strict AABB test.  A pure
function of its two arguments. -/
def check_collision (new_wall : Rect) (existing_walls : List Rect) : Bool :=
  match existing_walls with
  | [] => false
  | wall :: rest =>
    let (x1, y1, x2, y2) := new_wall
    let (wx1, wy1, wx2, wy2) := wall
    if x1 < wx2 ∧ x2 > wx1 ∧ y1 < wy2 ∧ y2 > wy1 then true
    else check_collision new_wall rest

/-! ## The Maze aggregate -/

/-- The maze state: the scene config it owns, the ordered obstacle list, the
scalar parameters, the custom-wall mapping (a Python dict, modelled as an
insertion-ordered association list) and the wall-id counter.  The
`goal_object` / `final_object` attributes are set lazily in Python; they are
modelled as `Option` fields starting at `none`. -/
structure Maze where
  config : Config
  obstacles : List Obstacle
  size : ℕ
  scale : ℚ
  wall_height : ℚ
  wall_length : ℚ
  maze_size : ℚ
  center_position : ℚ × ℚ
  custom_walls : List (String × Obstacle)
  wall_id_counter : ℕ
  goal_object : Option Obstacle
  final_object : Option Obstacle
deriving DecidableEq

/-- `Maze.create_floor`: one light-gray slab centered at `center_position`. -/
def Maze.create_floor (m : Maze) (s : RandStream) (p : RandPos) : Maze × RandPos :=
  let floor_color : List ℚ := [0.8, 0.8, 0.8]
  let floor_thickness : ℚ := 0.1
  let floor_size : List ℚ := [m.maze_size, m.maze_size, floor_thickness, 0.1]
  let floor_position : List ℚ := [m.center_position.1, m.center_position.2, -floor_thickness / 2]
  let r := Obstacle.init m.config "floor" .ssBox floor_size floor_color floor_position s p
  ({ m with obstacles := m.obstacles ++ [r.1], config := r.2.1 }, r.2.2)

/-- `Maze.add_wall`: appends one obstacle and increments the wall-id
counter; the sole primitive the other wall operations funnel through. -/
def Maze.add_wall (m : Maze) (name : String) (position size color : List ℚ)
    (s : RandStream) (p : RandPos) : Maze × RandPos :=
  let r := Obstacle.init m.config name .ssBox size color position s p
  ({ m with obstacles := m.obstacles ++ [r.1], config := r.2.1,
            wall_id_counter := m.wall_id_counter + 1 }, r.2.2)

/-- `Maze.create_maze`: lays `size + 2` unit segments along each of the four
sides of the perimeter (top/bottom loop first, then left/right loop). -/
def Maze.create_maze (m : Maze) (s : RandStream) (p : RandPos) : Maze × RandPos :=
  let wall_color : List ℚ := [0.35, 0.16, 0.14]
  let cube_size : List ℚ := [m.wall_length, m.wall_length, m.wall_height, 0.1]
  let offset_x : ℚ := -m.maze_size / 2
  let offset_y : ℚ := -m.maze_size / 2
  let r1 := (List.range (m.size + 2)).foldl (fun acc (i : ℕ) =>
    let x : ℚ := offset_x + (i : ℚ) * m.wall_length - m.wall_length / 2
    let a := acc.1.add_wall ("top_wall_" ++ natStr i)
      [x, offset_y - m.wall_length / 2, m.wall_height / 2] cube_size wall_color s acc.2
    a.1.add_wall ("bottom_wall_" ++ natStr i)
      [x, offset_y + m.maze_size + m.wall_length / 2, m.wall_height / 2] cube_size wall_color
      s a.2) (m, p)
  (List.range (m.size + 2)).foldl (fun acc (i : ℕ) =>
    let y : ℚ := offset_y + (i : ℚ) * m.wall_length - m.wall_length / 2
    let a := acc.1.add_wall ("left_wall_" ++ natStr i)
      [offset_x - m.wall_length / 2, y, m.wall_height / 2] cube_size wall_color s acc.2
    a.1.add_wall ("right_wall_" ++ natStr i)
      [offset_x + m.maze_size + m.wall_length / 2, y, m.wall_height / 2] cube_size wall_color
      s a.2) r1

/-- `Maze.__init__`: records the parameters (`floor_size` is accepted but
never read by the Python constructor), then builds the floor and the
perimeter.  The wall-id counter starts at 1. -/
def Maze.init (config : Config) (size : ℕ) (scale wall_height wall_length floor_size : ℚ)
    (center_position : ℚ × ℚ) (s : RandStream) (p : RandPos) : Maze × RandPos :=
  let m : Maze := { config := config, obstacles := [], size := size, scale := scale,
                    wall_height := wall_height, wall_length := wall_length,
                    maze_size := (size : ℚ) * wall_length,
                    center_position := center_position, custom_walls := [],
                    wall_id_counter := 1, goal_object := none, final_object := none }
  let r := m.create_floor s p
  r.1.create_maze s r.2

/-- `Maze.add_custom_wall`: `length` contiguous unit segments from
`start_coords`, stepping along x for `"horizontal"` and along y for
`"vertical"` (any other direction string places nothing, as in the Python
`if/elif`).  Each segment is named from the current wall-id counter, which
is then incremented a second time on top of `add_wall`'s increment. -/
def Maze.add_custom_wall (m : Maze) (s : RandStream) (p : RandPos)
    (start_coords : ℚ × ℚ) (direction : String) (length : ℕ) : Maze × RandPos :=
  let wall_color : List ℚ := [0.25, 0.25, 0.25]
  let cube_size : List ℚ := [m.wall_length, m.wall_length, m.wall_height, 0.1]
  let x := start_coords.1
  let y := start_coords.2
  if direction = "horizontal" then
    (List.range length).foldl (fun acc (i : ℕ) =>
      let name := "custom_wall_" ++ natStr acc.1.wall_id_counter
      let a := acc.1.add_wall name [x + (i : ℚ) * acc.1.wall_length, y, acc.1.wall_height / 2]
        cube_size wall_color s acc.2
      ({ a.1 with wall_id_counter := a.1.wall_id_counter + 1 }, a.2)) (m, p)
  else if direction = "vertical" then
    (List.range length).foldl (fun acc (i : ℕ) =>
      let name := "custom_wall_" ++ natStr acc.1.wall_id_counter
      let a := acc.1.add_wall name [x, y + (i : ℚ) * acc.1.wall_length, acc.1.wall_height / 2]
        cube_size wall_color s acc.2
      ({ a.1 with wall_id_counter := a.1.wall_id_counter + 1 }, a.2)) (m, p)
  else (m, p)

/-- `Maze.add_goal_object`: a fixed-size blue marker at the given (x, y)
with hardcoded z-height 0.2; overwrites only the maze's `goal_object`
reference and appends to the obstacle list and scene. -/
def Maze.add_goal_object (m : Maze) (coord : ℚ × ℚ) (s : RandStream) (p : RandPos) :
    Maze × RandPos :=
  let position : List ℚ := [coord.1, coord.2, 0.2]
  let r := Obstacle.init m.config "goal_object" .ssBox [0.3, 0.3, 0.3, 0.1] [0, 0, 1]
    position s p
  ({ m with goal_object := some r.1, obstacles := m.obstacles ++ [r.1], config := r.2.1 }, r.2.2)

/-- `Maze.add_final_object`: a fixed-size yellow marker at the given (x, y)
with hardcoded z-height 0.3; overwrites only the maze's `final_object`
reference and appends to the obstacle list and scene. -/
def Maze.add_final_object (m : Maze) (coord : ℚ × ℚ) (s : RandStream) (p : RandPos) :
    Maze × RandPos :=
  let position : List ℚ := [coord.1, coord.2, 0.3]
  let r := Obstacle.init m.config "final_object" .ssBox [0.4, 0.4, 0.4, 0.1] [1, 1, 0]
    position s p
  ({ m with final_object := some r.1, obstacles := m.obstacles ++ [r.1], config := r.2.1 }, r.2.2)

/-! ## Persistence -/

/-- The robot data that `save_maze` persists (`position`, `model`,
`quaternion`); the scene side effect of `Robot.create_robot` loads an
external model file and is outside the embedded core. -/
structure Robot where
  position : List ℚ
  model : String
  quaternion : List ℚ
deriving DecidableEq

/-- The JSON document written by `save_maze` and read by `load_maze`.  Every
key that may be absent from a hand-made document is an `Option`. -/
structure MazeData where
  size : Option ℕ
  scale : Option ℚ
  wall_height : Option ℚ
  wall_length : Option ℚ
  maze_size : Option ℚ
  center_position : Option (ℚ × ℚ)
  wall_id_counter : Option ℕ
  obstacles : Option (List ObstacleRecord)
  custom_walls : Option (List ObstacleRecord)
  robot_position : Option (List ℚ)
  robot_model : Option String
  robot_quaternion : Option (List ℚ)
deriving DecidableEq

/-- `Maze.save_maze`: serializes the scalar fields, the obstacle list and
the values of the custom-wall mapping; robot keys only when a robot is
supplied. -/
def Maze.save_maze (m : Maze) (robot : Option Robot) : MazeData :=
  { size := some m.size, scale := some m.scale, wall_height := some m.wall_height,
    wall_length := some m.wall_length, maze_size := some m.maze_size,
    center_position := some m.center_position, wall_id_counter := some m.wall_id_counter,
    obstacles := some (m.obstacles.map Obstacle.to_dict),
    custom_walls := some (m.custom_walls.map (fun kv => kv.2.to_dict)),
    robot_position := robot.map (fun r => r.position),
    robot_model := robot.map (fun r => r.model),
    robot_quaternion := robot.map (fun r => r.quaternion) }

/-- `maze_data['k']`: a required-key read, `KeyError` when absent. -/
def getKey {α : Type} (key : String) : Option α → Except LoadError α
  | some v => .ok v
  | none => .error (.keyError key)

/-- The obstacle-reconstruction loop of `load_maze`: rebuilds each record in
order, threading the scene config and the random cursor. -/
def load_obstacles (s : RandStream) :
    Config → List ObstacleRecord → RandPos →
    Except LoadError (List Obstacle × Config × RandPos)
  | config, [], p => .ok ([], config, p)
  | config, d :: rest, p => do
    let r ← Obstacle.from_dict config d s p
    let r2 ← load_obstacles s r.2.1 rest r.2.2
    .ok (r.1 :: r2.1, r2.2.1, r2.2.2)

/-- Python dict assignment `d[k] = v`: replace in place when the key is
present, append otherwise. -/
def dictInsert (d : List (String × Obstacle)) (k : String) (v : Obstacle) :
    List (String × Obstacle) :=
  match d with
  | [] => [(k, v)]
  | (k', v') :: rest => if k' = k then (k', v) :: rest else (k', v') :: dictInsert rest k v

/-- The custom-wall reconstruction loop of `load_maze`: rebuilds each record
and keys it by the (freshly suffixed) obstacle name. -/
def load_custom_walls (s : RandStream) :
    Config → List (String × Obstacle) → List ObstacleRecord → RandPos →
    Except LoadError (List (String × Obstacle) × Config × RandPos)
  | config, acc, [], p => .ok (acc, config, p)
  | config, acc, d :: rest, p => do
    let r ← Obstacle.from_dict config d s p
    load_custom_walls s r.2.1 (dictInsert acc r.1.name r.1) rest r.2.2

/-- `Maze.load_maze`: reads the required scalar keys in source order
(first missing key raises), clears the scene config, reconstructs the
obstacle list (required key), then the custom-wall mapping — but only when
the `custom_walls` key is present; a document without it loads with an
empty mapping.  The `goal_object`/`final_object` references are left as
they were, as in the Python code. -/
def Maze.load_maze (m : Maze) (maze_data : MazeData) (s : RandStream) (p : RandPos) :
    Except LoadError (Maze × RandPos) := do
  let size ← getKey "size" maze_data.size
  let scale ← getKey "scale" maze_data.scale
  let wall_height ← getKey "wall_height" maze_data.wall_height
  let wall_length ← getKey "wall_length" maze_data.wall_length
  let maze_size ← getKey "maze_size" maze_data.maze_size
  let center_position ← getKey "center_position" maze_data.center_position
  let wall_id_counter ← getKey "wall_id_counter" maze_data.wall_id_counter
  let obstaclesData ← getKey "obstacles" maze_data.obstacles
  let r1 ← load_obstacles s [] obstaclesData p
  let r2 ← match maze_data.custom_walls with
    | some ws => load_custom_walls s r1.2.1 [] ws r1.2.2
    | none => .ok ([], r1.2.1, r1.2.2)
  .ok ({ m with size := size, scale := scale, wall_height := wall_height,
                wall_length := wall_length, maze_size := maze_size,
                center_position := center_position, wall_id_counter := wall_id_counter,
                config := r2.2.1, obstacles := r1.1, custom_walls := r2.1 }, r2.2.2)

/-! ## Random wall generation -/

/-- The candidate footprint of lines 263–267: note the asymmetry — for a
horizontal segment the cross-dimension is `wall_height`, not
`wall_length`. -/
def wall_boundary (wall_length wall_height x y : ℚ) (direction : String) (length : ℕ) :
    Rect :=
  if direction = "horizontal" then (x, y, x + (length : ℚ) * wall_length, y + wall_height)
  else (x, y, x + wall_length, y + (length : ℚ) * wall_length)

/-- The `while attempts < max_attempts` loop for one wall, recursing on the
remaining attempts: sample a candidate, commit it if it passes
`check_collision` against the accepted footprints, otherwise retry; when the
attempts are exhausted the wall is skipped (only reported). -/
def place_one_wall (maze : Maze) (existing : List Rect) (s : RandStream) :
    ℕ → RandPos → Maze × List Rect × RandPos
  | 0, p => (maze, existing, p)
  | fuel + 1, p =>
    let rx := uniformDraw s p (-maze.maze_size / 2 + maze.wall_length)
      (maze.maze_size / 2 - maze.wall_length)
    let ry := uniformDraw s rx.2 (-maze.maze_size / 2 + maze.wall_length)
      (maze.maze_size / 2 - maze.wall_length)
    let rd := choiceDraw s ry.2 ["horizontal", "vertical"]
    let rl := randintDraw s rd.2 1 3
    let wb := wall_boundary maze.wall_length maze.wall_height rx.1 ry.1 rd.1 rl.1
    if check_collision wb existing then place_one_wall maze existing s fuel rl.2
    else
      let r := maze.add_custom_wall s rl.2 (rx.1, ry.1) rd.1 rl.1
      (r.1, existing ++ [wb], r.2)

/-- `generate_random_walls`: for each of the `num_walls` requested walls,
run the bounded retry loop with `max_attempts = 100`.  Besides the final
maze the embedding also returns the internal `existing_walls` list of
accepted footprints (a local variable in the Python function), so that the
claims about it can be stated.  The function is total: a wall whose retries
are exhausted is skipped and generation continues. -/
def generate_random_walls (maze : Maze) (num_walls : ℕ) (s : RandStream) (p : RandPos) :
    Maze × List Rect × RandPos :=
  (List.range num_walls).foldl (fun acc _ =>
    place_one_wall acc.1 acc.2.1 s 100 acc.2.2) (maze, [], p)

/-! ## Basic lemmas about the embedded operations -/

theorem check_collision_nil (w : Rect) : check_collision w [] = false := rfl

theorem check_collision_cons (w b : Rect) (rest : List Rect) :
    check_collision w (b :: rest) =
      if w.1 < b.2.2.1 ∧ w.2.2.1 > b.1 ∧ w.2.1 < b.2.2.2 ∧ w.2.2.2 > b.2.1 then true
      else check_collision w rest := by
  obtain ⟨x1, y1, x2, y2⟩ := w
  obtain ⟨wx1, wy1, wx2, wy2⟩ := b
  rfl

theorem check_collision_singleton_iff (w b : Rect) :
    check_collision w [b] = true ↔
      (w.1 < b.2.2.1 ∧ w.2.2.1 > b.1 ∧ w.2.1 < b.2.2.2 ∧ w.2.2.2 > b.2.1) := by
  rw [check_collision_cons]
  split_ifs with h <;> simp [h, check_collision_nil]

theorem check_collision_false_iff (w : Rect) (l : List Rect) :
    check_collision w l = false ↔ ∀ b ∈ l, check_collision w [b] = false := by
  induction l with
  | nil => simp [check_collision_nil]
  | cons b rest ih =>
    rw [check_collision_cons]
    split_ifs with h
    · simp only [Bool.true_eq_false, false_iff]
      intro hall
      have := hall b (by simp)
      rw [check_collision_cons] at this
      simp [h] at this
    · simp only [ih, List.mem_cons]
      constructor
      · rintro hall b' (rfl | hb')
        · rw [check_collision_cons]
          simp [h, check_collision_nil]
        · exact hall b' hb'
      · intro hall b' hb'
        exact hall b' (Or.inr hb')

theorem check_collision_singleton_symm (a b : Rect) :
    check_collision a [b] = check_collision b [a] := by
  rcases h1 : check_collision a [b] with _ | _ <;> rcases h2 : check_collision b [a] with _ | _
  · rfl
  · rw [check_collision_singleton_iff] at h2
    have : ¬ (a.1 < b.2.2.1 ∧ a.2.2.1 > b.1 ∧ a.2.1 < b.2.2.2 ∧ a.2.2.2 > b.2.1) := by
      rw [← check_collision_singleton_iff, h1]; simp
    exact absurd ⟨h2.2.1, h2.1, h2.2.2.2, h2.2.2.1⟩ this
  · rw [check_collision_singleton_iff] at h1
    have : ¬ (b.1 < a.2.2.1 ∧ b.2.2.1 > a.1 ∧ b.2.1 < a.2.2.2 ∧ b.2.2.2 > a.2.1) := by
      rw [← check_collision_singleton_iff, h2]; simp
    exact absurd ⟨h1.2.1, h1.1, h1.2.2.2, h1.2.2.1⟩ this
  · rfl

/-- A `foldl` preserves any invariant its step preserves. -/
theorem foldl_preserve {α β : Type} (Inv : α → Prop) (f : α → β → α)
    (h : ∀ a b, Inv a → Inv (f a b)) :
    ∀ (l : List β) (a : α), Inv a → Inv (l.foldl f a) := by
  intro l
  induction l with
  | nil => intro a ha; simpa using ha
  | cons b rest ih => intro a ha; rw [List.foldl_cons]; exact ih _ (h a b ha)

theorem add_wall_obstacles_length (m : Maze) (name : String)
    (position size color : List ℚ) (s : RandStream) (p : RandPos) :
    ((m.add_wall name position size color s p).1).obstacles.length
      = m.obstacles.length + 1 := by
  simp [Maze.add_wall, Obstacle.init, Obstacle.create_object]

/-- A fold whose every step adds `k` obstacles adds `k · length` obstacles. -/
theorem foldl_obstacles_add {β : Type} (f : (Maze × RandPos) → β → (Maze × RandPos)) (k : ℕ)
    (hf : ∀ acc b, ((f acc b).1).obstacles.length = acc.1.obstacles.length + k) :
    ∀ (l : List β) (acc : Maze × RandPos),
      ((l.foldl f acc).1).obstacles.length = acc.1.obstacles.length + k * l.length := by
  intro l
  induction l with
  | nil => simp
  | cons b rest ih =>
    intro acc
    rw [List.foldl_cons, ih, hf]
    simp only [List.length_cons, Nat.mul_succ]
    omega

theorem create_maze_obstacles_length (m : Maze) (s : RandStream) (p : RandPos) :
    ((m.create_maze s p).1).obstacles.length = m.obstacles.length + 4 * (m.size + 2) := by
  simp only [Maze.create_maze]
  rw [foldl_obstacles_add _ 2 ?hOuter, foldl_obstacles_add _ 2 ?hInner]
  case hOuter =>
    intro acc i
    simp [Maze.add_wall, Obstacle.init, Obstacle.create_object]
  case hInner =>
    intro acc i
    simp [Maze.add_wall, Obstacle.init, Obstacle.create_object]
  simp [List.length_range]
  ring

theorem create_floor_obstacles_length (m : Maze) (s : RandStream) (p : RandPos) :
    ((m.create_floor s p).1).obstacles.length = m.obstacles.length + 1 := by
  simp [Maze.create_floor, Obstacle.init, Obstacle.create_object]

theorem create_maze_size_eq (m : Maze) (s : RandStream) (p : RandPos) :
    ((m.create_maze s p).1).size = m.size := by
  simp only [Maze.create_maze]
  have h : ∀ (l : List ℕ) (f : (Maze × RandPos) → ℕ → (Maze × RandPos))
      (hf : ∀ acc i, ((f acc i).1).size = acc.1.size) (acc : Maze × RandPos),
      ((l.foldl f acc).1).size = acc.1.size := by
    intro l f hf
    induction l with
    | nil => intro acc; rfl
    | cons b rest ih => intro acc; rw [List.foldl_cons, ih, hf]
  rw [h _ _ ?_, h _ _ ?_] <;> intro acc i <;> simp [Maze.add_wall]

/-! ## Shared concrete inputs for witnesses and counterexamples -/

/-- A concrete random oracle: every integer draw reads 0 (so every 4-digit
id comes out as 1000) and every uniform draw reads 0. -/
def sZero : RandStream := ⟨fun _ => 0, fun _ => 0⟩

/-- The cursor at the start of both streams. -/
def pZero : RandPos := ⟨0, 0⟩

/-- A concrete maze built by the constructor with grid size 0 (floor plus
8 perimeter segments). -/
abbrev mInit0 : Maze × RandPos := Maze.init [] 0 1 1 1 20 (0, 0) sZero pZero

/-- `mInit0` extended with one horizontal custom wall of length 1: its
obstacle is named `custom_wall_9_1000` and the counter ends at 11. -/
abbrev mCustom : Maze × RandPos :=
  (mInit0.1).add_custom_wall sZero mInit0.2 (0, 0) "horizontal" 1

/-! ## C3: the collision test contract -/

/-- **C3.** For every pair of axis-aligned rectangles `(minX, minY, maxX,
maxY)`, `check_collision` (with a singleton list of existing walls, i.e. the
pairwise test of the source loop body) returns `true` iff the interiors
strictly overlap (`x1 < wx2 ∧ x2 > wx1 ∧ y1 < wy2 ∧ y2 > wy1`); the test is
symmetric; and rectangles sharing only a boundary edge do not collide
(shown on the edge-touching pair `(0,0,1,1)`, `(1,0,2,1)`).  `check_collision`
is a pure Lean function of its arguments, which is the shallow-embedding
rendering of "no side effects". -/
theorem C3_aabb_contract (x1 y1 x2 y2 wx1 wy1 wx2 wy2 : ℚ) :
    (check_collision (x1, y1, x2, y2) [(wx1, wy1, wx2, wy2)] = true ↔
      (x1 < wx2 ∧ x2 > wx1 ∧ y1 < wy2 ∧ y2 > wy1)) ∧
    check_collision (x1, y1, x2, y2) [(wx1, wy1, wx2, wy2)] =
      check_collision (wx1, wy1, wx2, wy2) [(x1, y1, x2, y2)] ∧
    check_collision (0, 0, 1, 1) [(1, 0, 2, 1)] = false := by
  refine ⟨?_, check_collision_singleton_symm _ _, by decide⟩
  exact check_collision_singleton_iff (x1, y1, x2, y2) (wx1, wy1, wx2, wy2)

/-! ## C7: perimeter segment count -/

/-- **C7.** Building the perimeter lays exactly `4 · (g + 2)` wall segments
for grid size `g`: `create_maze` adds `4 · (size + 2)` obstacles on top of
whatever is present, and a freshly constructed maze has exactly the floor
plus `4 · (size + 2)` perimeter segments. -/
theorem C7_perimeter_count (m : Maze) (config : Config) (size : ℕ)
    (scale wall_height wall_length floor_size : ℚ) (center_position : ℚ × ℚ)
    (s : RandStream) (p : RandPos) :
    ((m.create_maze s p).1).obstacles.length = m.obstacles.length + 4 * (m.size + 2) ∧
    ((Maze.init config size scale wall_height wall_length floor_size center_position
        s p).1).obstacles.length = 1 + 4 * (size + 2) := by
  refine ⟨create_maze_obstacles_length m s p, ?_⟩
  have hfs : ∀ (m' : Maze) (s' : RandStream) (p' : RandPos),
      ((m'.create_floor s' p').1).size = m'.size := by
    intro m' s' p'
    simp [Maze.create_floor]
  simp only [Maze.init]
  rw [create_maze_obstacles_length, create_floor_obstacles_length, hfs]
  simp

/-! ## C8: the closed shape lookup table -/

/-- **C8.** The shape lookup table has exactly one entry (`"ssBox"`), and
`Obstacle.from_dict` fails with `UnknownShapeKind` carrying the offending
string exactly when the record's shape string is not `"ssBox"`; for
`"ssBox"` it succeeds. -/
theorem C8_unknown_shape_kind (config : Config) (data : ObstacleRecord)
    (s : RandStream) (p : RandPos) :
    shape_type_mapping.length = 1 ∧
    (Obstacle.from_dict config data s p
        = .error (.unknownShapeKind data.shape_type) ↔ data.shape_type ≠ "ssBox") ∧
    ((Obstacle.from_dict config data s p).isOk = true ↔ data.shape_type = "ssBox") := by
  have hlook : shape_type_mapping.lookup data.shape_type =
      if data.shape_type = "ssBox" then some ShapeType.ssBox else none := by
    by_cases h : data.shape_type = "ssBox"
    · simp [shape_type_mapping, List.lookup, h]
    · have hb : (data.shape_type == "ssBox") = false := beq_eq_false_iff_ne.mpr h
      simp [shape_type_mapping, List.lookup, hb, h]
  refine ⟨rfl, ?_, ?_⟩ <;> by_cases h : data.shape_type = "ssBox"
  · simp [Obstacle.from_dict, h, shape_type_mapping, List.lookup]
  · have hb : (data.shape_type == "ssBox") = false := beq_eq_false_iff_ne.mpr h
    simp [Obstacle.from_dict, shape_type_mapping, List.lookup, hb, h]
  · simp [Obstacle.from_dict, h, shape_type_mapping, List.lookup, Except.isOk, Except.toBool]
  · have hb : (data.shape_type == "ssBox") = false := beq_eq_false_iff_ne.mpr h
    simp [Obstacle.from_dict, shape_type_mapping, List.lookup, hb, h,
      Except.isOk, Except.toBool]

/-! ## C9: goal/final markers are overwritten by reference only -/

/-- **C9.** A `Maze` holds at most one `goal_object` and one `final_object`
reference (they are single `Option` fields).  Calling `add_goal_object`
(resp. `add_final_object`) a second time overwrites only that reference:
both markers stay in the obstacle list and in the scene config, and every
other maze field (counter, custom walls, the other marker reference, all
scalars) is unchanged. -/
theorem C9_marker_overwrite (m : Maze) (c1 c2 : ℚ × ℚ) (s1 s2 : RandStream)
    (p1 p2 : RandPos) :
    (∃ g1 g2,
      ((m.add_goal_object c1 s1 p1).1).goal_object = some g1 ∧
      ((((m.add_goal_object c1 s1 p1).1).add_goal_object c2 s2 p2).1).goal_object = some g2 ∧
      ((((m.add_goal_object c1 s1 p1).1).add_goal_object c2 s2 p2).1).obstacles
        = m.obstacles ++ [g1, g2] ∧
      ((((m.add_goal_object c1 s1 p1).1).add_goal_object c2 s2 p2).1).config
        = m.config ++ [g1, g2] ∧
      ((((m.add_goal_object c1 s1 p1).1).add_goal_object c2 s2 p2).1).wall_id_counter
        = m.wall_id_counter ∧
      ((((m.add_goal_object c1 s1 p1).1).add_goal_object c2 s2 p2).1).custom_walls
        = m.custom_walls ∧
      ((((m.add_goal_object c1 s1 p1).1).add_goal_object c2 s2 p2).1).final_object
        = m.final_object ∧
      ((((m.add_goal_object c1 s1 p1).1).add_goal_object c2 s2 p2).1).size = m.size ∧
      ((((m.add_goal_object c1 s1 p1).1).add_goal_object c2 s2 p2).1).scale = m.scale ∧
      ((((m.add_goal_object c1 s1 p1).1).add_goal_object c2 s2 p2).1).wall_height
        = m.wall_height ∧
      ((((m.add_goal_object c1 s1 p1).1).add_goal_object c2 s2 p2).1).wall_length
        = m.wall_length ∧
      ((((m.add_goal_object c1 s1 p1).1).add_goal_object c2 s2 p2).1).maze_size
        = m.maze_size ∧
      ((((m.add_goal_object c1 s1 p1).1).add_goal_object c2 s2 p2).1).center_position
        = m.center_position) ∧
    (∃ f1 f2,
      ((m.add_final_object c1 s1 p1).1).final_object = some f1 ∧
      ((((m.add_final_object c1 s1 p1).1).add_final_object c2 s2 p2).1).final_object
        = some f2 ∧
      ((((m.add_final_object c1 s1 p1).1).add_final_object c2 s2 p2).1).obstacles
        = m.obstacles ++ [f1, f2] ∧
      ((((m.add_final_object c1 s1 p1).1).add_final_object c2 s2 p2).1).config
        = m.config ++ [f1, f2] ∧
      ((((m.add_final_object c1 s1 p1).1).add_final_object c2 s2 p2).1).wall_id_counter
        = m.wall_id_counter ∧
      ((((m.add_final_object c1 s1 p1).1).add_final_object c2 s2 p2).1).custom_walls
        = m.custom_walls ∧
      ((((m.add_final_object c1 s1 p1).1).add_final_object c2 s2 p2).1).goal_object
        = m.goal_object) := by
  constructor
  · refine ⟨_, _, rfl, rfl, ?_, ?_, rfl, rfl, rfl, rfl, rfl, rfl, rfl, rfl, rfl⟩ <;>
      simp [Maze.add_goal_object, Obstacle.init, Obstacle.create_object]
  · refine ⟨_, _, rfl, rfl, ?_, ?_, rfl, rfl, rfl⟩ <;>
      simp [Maze.add_final_object, Obstacle.init, Obstacle.create_object]

/-! ## Loading lemmas -/

theorem from_dict_ssBox (config : Config) (data : ObstacleRecord) (s : RandStream)
    (p : RandPos) (h : data.shape_type = "ssBox") :
    Obstacle.from_dict config data s p =
      .ok (Obstacle.init config data.name ShapeType.ssBox data.size data.color
        data.position s p) := by
  simp [Obstacle.from_dict, h, shape_type_mapping, List.lookup]

/-- Reconstructing well-formed records succeeds and yields obstacles that
agree with their records on shape, size, color and position, while the name
gains a fresh `'_' ++ 4-digit` suffix. -/
theorem load_obstacles_spec (s : RandStream) :
    ∀ (l : List ObstacleRecord) (config : Config) (p : RandPos),
      (∀ r ∈ l, r.shape_type = "ssBox") →
      ∃ out config' p', load_obstacles s config l p = .ok (out, config', p') ∧
        List.Forall₂ (fun (r : ObstacleRecord) (o : Obstacle) =>
          o.shape_type = ShapeType.ssBox ∧ o.size = r.size ∧ o.color = r.color ∧
          o.position = r.position ∧
          ∃ rid, 1000 ≤ rid ∧ rid ≤ 9999 ∧ o.name = r.name ++ "_" ++ natStr rid) l out := by
  intro l
  induction l with
  | nil =>
    intro config p _
    exact ⟨[], config, p, rfl, List.Forall₂.nil⟩
  | cons d rest ih =>
    intro config p hall
    have hd := from_dict_ssBox config d s p (hall d (by simp))
    obtain ⟨out, config', p', hres, hrel⟩ :=
      ih ((Obstacle.init config d.name ShapeType.ssBox d.size d.color d.position s p).2.1)
        ((Obstacle.init config d.name ShapeType.ssBox d.size d.color d.position s p).2.2)
        (fun r hr => hall r (by simp [hr]))
    refine ⟨(Obstacle.init config d.name ShapeType.ssBox d.size d.color d.position s p).1
        :: out, config', p', ?_, List.Forall₂.cons ?_ hrel⟩
    · simp only [load_obstacles, Bind.bind, Except.bind, hd, hres]
    · refine ⟨rfl, rfl, rfl, rfl, 1000 + s.nats p.n % 9000, by omega, ?_, rfl⟩
      have : s.nats p.n % 9000 < 9000 := Nat.mod_lt _ (by omega)
      omega

/-! ## C10: a document without the custom_walls key -/

/-- **C10.** A maze document that has every required key but lacks
`custom_walls` loads successfully (given reconstructible obstacle records)
and leaves the custom-wall mapping empty, whereas a document missing the
required `obstacles` key fails with `KeyError "obstacles"`. -/
theorem C10_optional_custom_walls (m0 : Maze) (sz : ℕ) (sc wh wl ms : ℚ)
    (cp : ℚ × ℚ) (wc : ℕ) (obsL : List ObstacleRecord)
    (cw : Option (List ObstacleRecord)) (rp : Option (List ℚ)) (rm : Option String)
    (rq : Option (List ℚ)) (s : RandStream) (p : RandPos)
    (hrec : ∀ r ∈ obsL, r.shape_type = "ssBox") :
    (∃ m' p', Maze.load_maze m0
        ⟨some sz, some sc, some wh, some wl, some ms, some cp, some wc, some obsL,
         none, rp, rm, rq⟩ s p = .ok (m', p') ∧ m'.custom_walls = []) ∧
    Maze.load_maze m0
        ⟨some sz, some sc, some wh, some wl, some ms, some cp, some wc, none,
         cw, rp, rm, rq⟩ s p = .error (.keyError "obstacles") := by
  constructor
  · obtain ⟨out, config', p', hres, -⟩ := load_obstacles_spec s obsL [] p hrec
    refine ⟨{ m0 with size := sz, scale := sc, wall_height := wh, wall_length := wl,
                      maze_size := ms, center_position := cp, wall_id_counter := wc,
                      config := config', obstacles := out, custom_walls := [] },
            p', ?_, rfl⟩
    simp only [Maze.load_maze, getKey, Bind.bind, Except.bind, hres]
  · rfl

/-- Witness for C10: a concrete document with all required keys but no
`custom_walls` loads with an empty mapping; dropping `obstacles` instead
raises `KeyError "obstacles"`. -/
theorem C10_optional_custom_walls_witness :
    (∃ m' p', Maze.load_maze mInit0.1
        ⟨some 0, some 1, some 1, some 1, some 0, some (0, 0), some 1, some [],
         none, none, none, none⟩ sZero pZero = .ok (m', p') ∧ m'.custom_walls = []) ∧
    Maze.load_maze mInit0.1
        ⟨some 0, some 1, some 1, some 1, some 0, some (0, 0), some 1, none,
         none, none, none, none⟩ sZero pZero = .error (.keyError "obstacles") :=
  C10_optional_custom_walls mInit0.1 0 1 1 1 0 (0, 0) 1 [] none none none none sZero pZero
    (by simp)

/-! ## Lemmas about the random wall generator -/

theorem add_wall_q (m : Maze) (name : String) (position size color : List ℚ)
    (s : RandStream) (p : RandPos) :
    ((m.add_wall name position size color s p).2).q = p.q := rfl

theorem add_wall_fields (m : Maze) (name : String) (position size color : List ℚ)
    (s : RandStream) (p : RandPos) :
    ((m.add_wall name position size color s p).1).wall_length = m.wall_length ∧
    ((m.add_wall name position size color s p).1).wall_height = m.wall_height ∧
    ((m.add_wall name position size color s p).1).maze_size = m.maze_size ∧
    ((m.add_wall name position size color s p).1).size = m.size := by
  simp [Maze.add_wall]

theorem add_custom_wall_q (m : Maze) (s : RandStream) (p : RandPos) (sc : ℚ × ℚ)
    (dir : String) (len : ℕ) : ((m.add_custom_wall s p sc dir len).2).q = p.q := by
  have key : ∀ (f : (Maze × RandPos) → ℕ → (Maze × RandPos)),
      (∀ acc i, ((f acc i).2).q = acc.2.q) →
      ∀ (l : List ℕ) (acc : Maze × RandPos), ((l.foldl f acc).2).q = acc.2.q := by
    intro f hf l
    induction l with
    | nil => intro acc; rfl
    | cons b r ih => intro acc; rw [List.foldl_cons, ih, hf]
  simp only [Maze.add_custom_wall]
  split_ifs
  · apply key
    intro acc i
    rfl
  · apply key
    intro acc i
    rfl
  · rfl

theorem add_custom_wall_fields (m : Maze) (s : RandStream) (p : RandPos) (sc : ℚ × ℚ)
    (dir : String) (len : ℕ) :
    ((m.add_custom_wall s p sc dir len).1).wall_length = m.wall_length ∧
    ((m.add_custom_wall s p sc dir len).1).wall_height = m.wall_height := by
  have key : ∀ (f : (Maze × RandPos) → ℕ → (Maze × RandPos)),
      (∀ acc i, ((f acc i).1).wall_length = acc.1.wall_length ∧
                ((f acc i).1).wall_height = acc.1.wall_height) →
      ∀ (l : List ℕ) (acc : Maze × RandPos),
        ((l.foldl f acc).1).wall_length = acc.1.wall_length ∧
        ((l.foldl f acc).1).wall_height = acc.1.wall_height := by
    intro f hf l
    induction l with
    | nil => intro acc; exact ⟨rfl, rfl⟩
    | cons b r ih =>
      intro acc
      rw [List.foldl_cons]
      obtain ⟨h1, h2⟩ := ih (f acc b)
      obtain ⟨h3, h4⟩ := hf acc b
      exact ⟨h1.trans h3, h2.trans h4⟩
  simp only [Maze.add_custom_wall]
  split_ifs
  · apply key
    intro acc i
    exact ⟨rfl, rfl⟩
  · apply key
    intro acc i
    exact ⟨rfl, rfl⟩
  · exact ⟨rfl, rfl⟩

/-- The relation "these two footprints do not collide, in either order,
under `check_collision`". -/
def NoMutualCollision (a b : Rect) : Prop :=
  check_collision a [b] = false ∧ check_collision b [a] = false

theorem place_one_wall_pairwise (maze : Maze) (s : RandStream) :
    ∀ (fuel : ℕ) (ex : List Rect) (p : RandPos),
      ex.Pairwise NoMutualCollision →
      ((place_one_wall maze ex s fuel p).2.1).Pairwise NoMutualCollision := by
  intro fuel
  induction fuel with
  | zero => intro ex p h; exact h
  | succ f ih =>
    intro ex p h
    simp only [place_one_wall]
    split_ifs with hc
    · exact ih ex _ h
    · simp only [Bool.not_eq_true] at hc
      rw [List.pairwise_append]
      refine ⟨h, List.pairwise_singleton _ _, ?_⟩
      intro a ha b hb
      rw [List.mem_singleton] at hb
      have hall := (check_collision_false_iff _ ex).mp hc
      have h1 := hall a ha
      rw [hb]
      exact ⟨(check_collision_singleton_symm a _).trans h1, h1⟩

/-! ## C2: committed footprints never mutually collide -/

/-- **C2.** In every run of `generate_random_walls` (i.e. for every random
oracle), the list of committed custom-wall footprints is pairwise
non-colliding in both orders of the AABB test: each candidate was tested
with `check_collision` against all previously accepted footprints before
being committed. -/
theorem C2_committed_footprints_disjoint (maze : Maze) (num_walls : ℕ)
    (s : RandStream) (p : RandPos) :
    ((generate_random_walls maze num_walls s p).2.1).Pairwise NoMutualCollision := by
  simp only [generate_random_walls]
  have key : ∀ (l : List ℕ) (acc : Maze × List Rect × RandPos),
      acc.2.1.Pairwise NoMutualCollision →
      ((l.foldl (fun acc _ => place_one_wall acc.1 acc.2.1 s 100 acc.2.2) acc).2.1).Pairwise
        NoMutualCollision := by
    intro l
    induction l with
    | nil => intro acc h; exact h
    | cons b r ih =>
      intro acc h
      rw [List.foldl_cons]
      exact ih _ (place_one_wall_pairwise acc.1 s 100 acc.2.1 acc.2.2 h)
  exact key (List.range num_walls) (maze, [], p) List.Pairwise.nil

/-! ## C4: generation is total, bounded and best-effort -/

theorem place_one_wall_bounds (maze : Maze) (s : RandStream) :
    ∀ (fuel : ℕ) (ex : List Rect) (p : RandPos),
      ((place_one_wall maze ex s fuel p).2.1).length ≤ ex.length + 1 ∧
      ((place_one_wall maze ex s fuel p).2.2).q ≤ p.q + 2 * fuel := by
  intro fuel
  induction fuel with
  | zero => intro ex p; exact ⟨Nat.le_succ _, Nat.le_refl _⟩
  | succ f ih =>
    intro ex p
    simp only [place_one_wall, uniformDraw, choiceDraw, randintDraw]
    split_ifs with hc
    · obtain ⟨h1, h2⟩ := ih ex ⟨p.n + 1 + 1, p.q + 1 + 1⟩
      refine ⟨h1, h2.trans ?_⟩
      show p.q + 1 + 1 + 2 * f ≤ p.q + 2 * (f + 1)
      omega
    · refine ⟨by simp, ?_⟩
      rw [add_custom_wall_q]
      show p.q + 1 + 1 ≤ p.q + 2 * (f + 1)
      omega

/-- **C4.** `generate_random_walls` is a total function (in this embedding
it returns a value for every maze, requested count and random oracle: there
is no exception channel in its type, unlike `load_maze`): an exhausted wall
is skipped and generation proceeds.  The number of committed walls is at
most the requested `num_walls` (possibly 0), and each requested wall
consumes at most 100 candidate attempts — visible here as the uniform-draw
cursor advancing by at most 2·100 per requested wall. -/
theorem C4_generation_never_aborts (maze : Maze) (num_walls : ℕ)
    (s : RandStream) (p : RandPos) :
    ((generate_random_walls maze num_walls s p).2.1).length ≤ num_walls ∧
    ((generate_random_walls maze num_walls s p).2.2).q ≤ p.q + 200 * num_walls := by
  simp only [generate_random_walls]
  have key : ∀ (l : List ℕ) (acc : Maze × List Rect × RandPos),
      ((l.foldl (fun acc _ => place_one_wall acc.1 acc.2.1 s 100 acc.2.2) acc).2.1).length
        ≤ acc.2.1.length + l.length ∧
      ((l.foldl (fun acc _ => place_one_wall acc.1 acc.2.1 s 100 acc.2.2) acc).2.2).q
        ≤ acc.2.2.q + 200 * l.length := by
    intro l
    induction l with
    | nil => intro acc; simp
    | cons b r ih =>
      intro acc
      rw [List.foldl_cons]
      obtain ⟨hb1, hb2⟩ := place_one_wall_bounds acc.1 s 100 acc.2.1 acc.2.2
      obtain ⟨hr1, hr2⟩ := ih (place_one_wall acc.1 acc.2.1 s 100 acc.2.2)
      constructor
      · simp only [List.length_cons]
        omega
      · simp only [List.length_cons]
        omega
  have h := key (List.range num_walls) (maze, [], p)
  simpa using h

/-! ## C6: the candidate footprint formula -/

/-- The shape of a footprint as computed by the generator: some start
coordinate, a direction that is one of the two direction strings, a length
between 1 and 3 cells, assembled by `wall_boundary`. -/
def FootprintShape (wl wh : ℚ) (b : Rect) : Prop :=
  ∃ (x y : ℚ) (len : ℕ) (dir : String), (dir = "horizontal" ∨ dir = "vertical") ∧
    1 ≤ len ∧ len ≤ 3 ∧ b = wall_boundary wl wh x y dir len

theorem place_one_wall_shape (s : RandStream) :
    ∀ (fuel : ℕ) (maze : Maze) (ex : List Rect) (p : RandPos),
      (∀ b ∈ ex, FootprintShape maze.wall_length maze.wall_height b) →
      ((place_one_wall maze ex s fuel p).1).wall_length = maze.wall_length ∧
      ((place_one_wall maze ex s fuel p).1).wall_height = maze.wall_height ∧
      ∀ b ∈ (place_one_wall maze ex s fuel p).2.1,
        FootprintShape maze.wall_length maze.wall_height b := by
  intro fuel
  induction fuel with
  | zero => intro maze ex p h; exact ⟨rfl, rfl, h⟩
  | succ f ih =>
    intro maze ex p h
    simp only [place_one_wall]
    split_ifs with hc
    · exact ih maze ex _ h
    · refine ⟨(add_custom_wall_fields _ _ _ _ _ _).1,
        (add_custom_wall_fields _ _ _ _ _ _).2, ?_⟩
      intro b hb
      rw [List.mem_append] at hb
      rcases hb with hb | hb
      · exact h b hb
      · rw [List.mem_singleton] at hb
        refine ⟨_, _, _, _, ?_, ?_, ?_, hb⟩
        · simp only [choiceDraw, uniformDraw]
          rcases Nat.mod_two_eq_zero_or_one (s.nats p.n) with h2 | h2 <;>
            rw [show ((["horizontal", "vertical"] : List String).length) = 2 from rfl, h2] <;>
            simp
        · simp only [randintDraw]
          omega
        · simp only [randintDraw, choiceDraw, uniformDraw]
          have := Nat.mod_lt (s.nats (p.n + 1)) (y := 3) (by omega)
          omega

/-- **C6.** The candidate bounding footprint is
`(x, y, x + length·wallLength, y + wallHeight)` for a horizontal direction
and `(x, y, x + wallLength, y + length·wallLength)` for a vertical one — in
particular `wallHeight` is the cross-dimension of a horizontal segment's
footprint — and every footprint the generator commits has exactly this
shape for some start coordinate, a direction among the two, and a length in
`[1, 3]`. -/
theorem C6_candidate_footprint (wl wh x y : ℚ) (len : ℕ) (maze : Maze) (n : ℕ)
    (s : RandStream) (p : RandPos) :
    wall_boundary wl wh x y "horizontal" len = (x, y, x + (len : ℚ) * wl, y + wh) ∧
    wall_boundary wl wh x y "vertical" len = (x, y, x + wl, y + (len : ℚ) * wl) ∧
    ((generate_random_walls maze n s p).2.1).Forall
      (FootprintShape maze.wall_length maze.wall_height) := by
  refine ⟨rfl, ?_, ?_⟩
  · rw [wall_boundary, if_neg (by decide)]
  · rw [List.forall_iff_forall_mem]
    simp only [generate_random_walls]
    have key := foldl_preserve
      (fun (acc : Maze × List Rect × RandPos) => acc.1.wall_length = maze.wall_length ∧
        acc.1.wall_height = maze.wall_height ∧
        ∀ b ∈ acc.2.1, FootprintShape maze.wall_length maze.wall_height b)
      (fun acc (_ : ℕ) => place_one_wall acc.1 acc.2.1 s 100 acc.2.2) ?step
      (List.range n) (maze, [], p) ⟨rfl, rfl, by simp⟩
    case step =>
      intro acc i hInv
      obtain ⟨h1, h2, h3⟩ := hInv
      have h3' : ∀ b ∈ acc.2.1, FootprintShape acc.1.wall_length acc.1.wall_height b := by
        rw [h1, h2]
        exact h3
      obtain ⟨g1, g2, g3⟩ := place_one_wall_shape s 100 acc.1 acc.2.1 acc.2.2 h3'
      refine ⟨g1.trans h1, g2.trans h2, ?_⟩
      intro b hb
      have := g3 b hb
      rw [h1, h2] at this
      exact this
    exact key.2.2

/-! ## C1: the save/load round trip -/

/-- Two obstacles agreeing on shape, size, color and position, the second
one's name being the first one's name extended by a fresh `'_' + 4-digit`
suffix (what `Obstacle.__init__` appends during reconstruction). -/
def SameUpToFreshSuffix (o o' : Obstacle) : Prop :=
  o'.shape_type = o.shape_type ∧ o'.size = o.size ∧ o'.color = o.color ∧
  o'.position = o.position ∧
  ∃ rid, 1000 ≤ rid ∧ rid ≤ 9999 ∧ o'.name = o.name ++ "_" ++ natStr rid

theorem to_dict_ssBox (o : Obstacle) : (o.to_dict).shape_type = "ssBox" := by
  cases h : o.shape_type
  simp [Obstacle.to_dict, h, ShapeType.toStr]

theorem load_custom_walls_ok (s : RandStream) :
    ∀ (l : List ObstacleRecord) (config : Config) (acc : List (String × Obstacle))
      (p : RandPos), (∀ r ∈ l, r.shape_type = "ssBox") →
      ∃ cw config' p', load_custom_walls s config acc l p = .ok (cw, config', p') := by
  intro l
  induction l with
  | nil => intro config acc p _; exact ⟨acc, config, p, rfl⟩
  | cons d rest ih =>
    intro config acc p hall
    have hd := from_dict_ssBox config d s p (hall d (by simp))
    obtain ⟨cw, config', p', hres⟩ :=
      ih ((Obstacle.init config d.name ShapeType.ssBox d.size d.color d.position s p).2.1)
        (dictInsert acc
          ((Obstacle.init config d.name ShapeType.ssBox d.size d.color d.position s p).1).name
          ((Obstacle.init config d.name ShapeType.ssBox d.size d.color d.position s p).1))
        ((Obstacle.init config d.name ShapeType.ssBox d.size d.color d.position s p).2.2)
        (fun r hr => hall r (by simp [hr]))
    refine ⟨cw, config', p', ?_⟩
    simp only [load_custom_walls, Bind.bind, Except.bind, hd, hres]

/-- Loading the document written by `save_maze` always succeeds; the scalar
fields and counter come back exactly, every obstacle comes back equal up to
a fresh name suffix, and an empty custom-wall mapping stays empty. -/
theorem load_of_save (m m0 : Maze) (robot : Option Robot) (s : RandStream) (p : RandPos) :
    ∃ out cw config' p',
      Maze.load_maze m0 (Maze.save_maze m robot) s p = .ok
        ({ m0 with size := m.size, scale := m.scale, wall_height := m.wall_height,
                   wall_length := m.wall_length, maze_size := m.maze_size,
                   center_position := m.center_position,
                   wall_id_counter := m.wall_id_counter,
                   config := config', obstacles := out, custom_walls := cw }, p') ∧
      List.Forall₂ SameUpToFreshSuffix m.obstacles out ∧
      (m.custom_walls = [] → cw = []) := by
  have hrec : ∀ r ∈ m.obstacles.map Obstacle.to_dict, r.shape_type = "ssBox" := by
    intro r hr
    rw [List.mem_map] at hr
    obtain ⟨o, -, rfl⟩ := hr
    exact to_dict_ssBox o
  obtain ⟨out, config1, p1, hok1, hrel⟩ :=
    load_obstacles_spec s (m.obstacles.map Obstacle.to_dict) [] p hrec
  have hrec2 : ∀ r ∈ m.custom_walls.map (fun kv => kv.2.to_dict), r.shape_type = "ssBox" := by
    intro r hr
    rw [List.mem_map] at hr
    obtain ⟨kv, -, rfl⟩ := hr
    exact to_dict_ssBox kv.2
  obtain ⟨cw, config2, p2, hok2⟩ :=
    load_custom_walls_ok s (m.custom_walls.map (fun kv => kv.2.to_dict)) config1 [] p1 hrec2
  refine ⟨out, cw, config2, p2, ?_, ?_, ?_⟩
  · simp only [Maze.load_maze, Maze.save_maze, getKey, Bind.bind, Except.bind, hok1, hok2]
  · rw [List.forall₂_map_left_iff] at hrel
    refine hrel.imp ?_
    intro o o' hR
    obtain ⟨hsh, hsz, hco, hpo, rid, h1, h2, h3⟩ := hR
    exact ⟨hsh.trans (show ShapeType.ssBox = o.shape_type by cases o.shape_type; rfl),
      hsz, hco, hpo, rid, h1, h2, h3⟩
  · intro hempty
    rw [hempty] at hok2
    simp only [List.map_nil, load_custom_walls] at hok2
    exact (by injection hok2 with h; exact (congrArg (fun t => t.1) h).symm : cw = [])

/-- Counterexample to C1 as literally stated: for the size-0 maze built by
the constructor, saving and loading does not reproduce the obstacle names —
reconstruction appends a fresh random suffix to every saved name (here
`floor_1000` comes back as `floor_1000_1000`). -/
theorem C1_roundtrip_counterexample :
    ((Maze.load_maze mInit0.1 (Maze.save_maze mInit0.1 none) sZero pZero).toOption.map
      (fun r => r.1.obstacles.map (fun o => o.name)))
      ≠ some (mInit0.1.obstacles.map (fun o => o.name)) := by
  decide

/-- **C1 (amended).** Saving a maze and loading the document back always
succeeds and reproduces the obstacle list exactly in count, shape kinds,
sizes, colors and positions (numbers are exact rationals here, so
"serialization precision" is equality); the loaded names, however, are the
saved names extended by a fresh `'_' + 4-digit-id` suffix appended by the
reconstruction path, not the saved names themselves. -/
theorem C1_roundtrip_amended (m m0 : Maze) (robot : Option Robot)
    (s : RandStream) (p : RandPos) :
    ∃ m' p', Maze.load_maze m0 (Maze.save_maze m robot) s p = .ok (m', p') ∧
      m'.obstacles.length = m.obstacles.length ∧
      List.Forall₂ SameUpToFreshSuffix m.obstacles m'.obstacles := by
  obtain ⟨out, cw, config', p', hok, hrel, -⟩ := load_of_save m m0 robot s p
  exact ⟨_, _, hok, hrel.length_eq.symm, hrel⟩

/-! ## C5: the wall-id counter versus custom wall names -/

/-- The characters of the fixed custom-wall name prefix. -/
def customWallTag : List Char := "custom_wall_".data

/-- `(a ++ b).data` unfolds to the concatenation of the character lists. -/
theorem strData_append (a b : String) : (a ++ b).data = a.data ++ b.data := rfl

/-- The maximal run of decimal digits at the end of a name. -/
def trailingDigits (l : List Char) : List Char :=
  (l.reverse.takeWhile Char.isDigit).reverse

/-- The numeric suffix of a name: the value of its maximal trailing digit
run (0 when there is none). -/
def trailingNat (name : String) : ℕ := charsToNat (trailingDigits name.data)

/-- Whether `l` starts with the prefix `pre` (both as character lists). -/
def startsWithChars : List Char → List Char → Bool
  | [], _ => true
  | _ :: _, [] => false
  | a :: as, b :: bs => if a = b then startsWithChars as bs else false

/-- A name counts as a custom wall name when it starts with
`custom_wall_`. -/
def isCustomName (name : String) : Bool := startsWithChars customWallTag name.data

/-- What the claim asserts of a maze, reading "numeric suffix" as the
wall-id component of a custom wall name: every obstacle or mapped custom
wall whose name decomposes as `custom_wall_<k>_<rest>` has `k` strictly
below the wall-id counter. -/
def NameIdBound (m : Maze) : Prop :=
  (∀ o ∈ m.obstacles, ∀ (k : ℕ) (rest : List Char),
    o.name.data = customWallTag ++ (natChars k ++ '_' :: rest) → k < m.wall_id_counter) ∧
  (∀ kv ∈ m.custom_walls, ∀ (k : ℕ) (rest : List Char),
    (kv.2).name.data = customWallTag ++ (natChars k ++ '_' :: rest) → k < m.wall_id_counter)

/-- The structural invariant of names generated by the script, relative to
a counter value `c`: either the name does not begin with `'c'` (floor,
perimeter walls, goal/final markers), or it is `custom_wall_<k>_<rest>`
with `k < c`. -/
inductive GoodName (c : ℕ) : List Char → Prop
  | other {ch : Char} {cs : List Char} : ch ≠ 'c' → GoodName c (ch :: cs)
  | custom {k : ℕ} {rest : List Char} : k < c →
      GoodName c (customWallTag ++ (natChars k ++ '_' :: rest))

theorem goodName_mono {c c' : ℕ} {l : List Char} (h : GoodName c l) (hc : c ≤ c') :
    GoodName c' l := by
  cases h with
  | other hch => exact GoodName.other hch
  | custom hk => exact GoodName.custom (lt_of_lt_of_le hk hc)

/-- Appending anything to a good name keeps it good (the embedded wall-id
component is untouched). -/
theorem goodName_append {c : ℕ} {l : List Char} (h : GoodName c l) (suffix : List Char) :
    GoodName c (l ++ suffix) := by
  cases h with
  | other hch => exact GoodName.other hch
  | custom hk =>
    rw [List.append_assoc, List.append_assoc]
    exact GoodName.custom hk

theorem goodName_bound {c : ℕ} {l : List Char} (h : GoodName c l) :
    ∀ (k : ℕ) (rest : List Char),
      l = customWallTag ++ (natChars k ++ '_' :: rest) → k < c := by
  intro k rest heq
  cases h with
  | other hch =>
    exfalso
    apply hch
    have hh := congrArg List.headI heq
    simpa [customWallTag] using hh
  | custom hk =>
    rename_i k0 rest0
    have hcancel : natChars k0 ++ '_' :: rest0 = natChars k ++ '_' :: rest :=
      List.append_cancel_left heq
    have := digit_run_split (natChars_digits k0) (natChars_digits k) hcancel
    rw [natChars_inj this.1] at hk
    exact hk

/-- The maze-level invariant along the script's maze operations: every
obstacle name is a `GoodName` for the current counter value, and the
custom-wall mapping is empty (`add_custom_wall` never registers its walls
there; `load_maze` only fills it from the saved list, which is itself empty
along these flows). -/
def MazeGood (m : Maze) : Prop :=
  (∀ o ∈ m.obstacles, GoodName m.wall_id_counter o.name.data) ∧ m.custom_walls = []

theorem strHead_append (a b : String) {ch : Char} (ha : ∃ tl, a.data = ch :: tl) :
    ∃ tl, (a ++ b).data = ch :: tl := by
  obtain ⟨tl, htl⟩ := ha
  exact ⟨tl ++ b.data, by rw [strData_append, htl]; rfl⟩

theorem goodName_of_strHead {c : ℕ} {a : String} {ch : Char}
    (ha : ∃ tl, a.data = ch :: tl) (h : ch ≠ 'c') : GoodName c a.data := by
  obtain ⟨tl, htl⟩ := ha
  rw [htl]
  exact GoodName.other h

theorem add_wall_good {m : Maze} {base : String} {ch : Char}
    (hhead : ∃ tl, base.data = ch :: tl) (hch : ch ≠ 'c')
    (position size color : List ℚ) (s : RandStream) (p : RandPos)
    (hm : MazeGood m) : MazeGood (m.add_wall base position size color s p).1 := by
  obtain ⟨hobs, hcw⟩ := hm
  constructor
  · intro o ho
    have ho' : o ∈ m.obstacles ++
        [(Obstacle.init m.config base .ssBox size color position s p).1] := ho
    rw [List.mem_append] at ho'
    rcases ho' with h1 | h1
    · exact goodName_mono (hobs o h1) (Nat.le_succ _)
    · rw [List.mem_singleton] at h1
      subst h1
      exact goodName_of_strHead (strHead_append _ _ (strHead_append _ _ hhead)) hch
  · exact hcw

theorem create_floor_good {m : Maze} (s : RandStream) (p : RandPos) (hm : MazeGood m) :
    MazeGood (m.create_floor s p).1 := by
  obtain ⟨hobs, hcw⟩ := hm
  constructor
  · intro o ho
    have ho' : o ∈ m.obstacles ++ [_] := ho
    rw [List.mem_append] at ho'
    rcases ho' with h1 | h1
    · exact hobs o h1
    · rw [List.mem_singleton] at h1
      subst h1
      exact goodName_of_strHead (strHead_append _ _ (strHead_append _ _ ⟨_, rfl⟩))
        (by decide)
  · exact hcw

theorem add_goal_good {m : Maze} (coord : ℚ × ℚ) (s : RandStream) (p : RandPos)
    (hm : MazeGood m) : MazeGood (m.add_goal_object coord s p).1 := by
  obtain ⟨hobs, hcw⟩ := hm
  constructor
  · intro o ho
    have ho' : o ∈ m.obstacles ++ [_] := ho
    rw [List.mem_append] at ho'
    rcases ho' with h1 | h1
    · exact hobs o h1
    · rw [List.mem_singleton] at h1
      subst h1
      exact goodName_of_strHead (strHead_append _ _ (strHead_append _ _ ⟨_, rfl⟩))
        (by decide)
  · exact hcw

theorem add_final_good {m : Maze} (coord : ℚ × ℚ) (s : RandStream) (p : RandPos)
    (hm : MazeGood m) : MazeGood (m.add_final_object coord s p).1 := by
  obtain ⟨hobs, hcw⟩ := hm
  constructor
  · intro o ho
    have ho' : o ∈ m.obstacles ++ [_] := ho
    rw [List.mem_append] at ho'
    rcases ho' with h1 | h1
    · exact hobs o h1
    · rw [List.mem_singleton] at h1
      subst h1
      exact goodName_of_strHead (strHead_append _ _ (strHead_append _ _ ⟨_, rfl⟩))
        (by decide)
  · exact hcw

theorem create_maze_good {m : Maze} (s : RandStream) (p : RandPos) (hm : MazeGood m) :
    MazeGood (m.create_maze s p).1 := by
  simp only [Maze.create_maze]
  apply foldl_preserve (fun acc : Maze × RandPos => MazeGood acc.1)
  · intro acc i hInv
    exact add_wall_good (strHead_append _ _ ⟨_, rfl⟩) (by decide) _ _ _ s _
      (add_wall_good (strHead_append _ _ ⟨_, rfl⟩) (by decide) _ _ _ s _ hInv)
  · apply foldl_preserve (fun acc : Maze × RandPos => MazeGood acc.1)
    · intro acc i hInv
      exact add_wall_good (strHead_append _ _ ⟨_, rfl⟩) (by decide) _ _ _ s _
        (add_wall_good (strHead_append _ _ ⟨_, rfl⟩) (by decide) _ _ _ s _ hInv)
    · exact hm

theorem init_good (config : Config) (size : ℕ)
    (scale wall_height wall_length floor_size : ℚ) (center_position : ℚ × ℚ)
    (s : RandStream) (p : RandPos) :
    MazeGood (Maze.init config size scale wall_height wall_length floor_size
      center_position s p).1 := by
  simp only [Maze.init]
  apply create_maze_good
  apply create_floor_good
  exact ⟨by simp, rfl⟩

theorem custom_name_data (k rid : ℕ) :
    ((("custom_wall_" ++ natStr k) ++ "_") ++ natStr rid).data
      = customWallTag ++ (natChars k ++ '_' :: natChars rid) := by
  simp only [strData_append, List.append_assoc]
  rfl

theorem add_wall_custom_good {m : Maze} (position size color : List ℚ)
    (s : RandStream) (p : RandPos) (hm : MazeGood m) :
    MazeGood { (m.add_wall ("custom_wall_" ++ natStr m.wall_id_counter)
        position size color s p).1 with
      wall_id_counter := (m.add_wall ("custom_wall_" ++ natStr m.wall_id_counter)
        position size color s p).1.wall_id_counter + 1 } := by
  obtain ⟨hobs, hcw⟩ := hm
  constructor
  · intro o ho
    have ho' : o ∈ m.obstacles ++ [(Obstacle.init m.config
        ("custom_wall_" ++ natStr m.wall_id_counter) .ssBox size color position s p).1] := ho
    rw [List.mem_append] at ho'
    rcases ho' with h1 | h1
    · exact goodName_mono (hobs o h1)
        (show m.wall_id_counter ≤ m.wall_id_counter + 1 + 1 by omega)
    · rw [List.mem_singleton] at h1
      subst h1
      have hname : ((Obstacle.init m.config
          ("custom_wall_" ++ natStr m.wall_id_counter) .ssBox size color position
          s p).1).name.data
          = customWallTag ++ (natChars m.wall_id_counter
              ++ '_' :: natChars (1000 + s.nats p.n % 9000)) :=
        custom_name_data m.wall_id_counter (1000 + s.nats p.n % 9000)
      rw [hname]
      exact GoodName.custom (show m.wall_id_counter < m.wall_id_counter + 1 + 1 by omega)
  · exact hcw

theorem add_custom_wall_good {m : Maze} (s : RandStream) (p : RandPos) (sc : ℚ × ℚ)
    (dir : String) (len : ℕ) (hm : MazeGood m) :
    MazeGood (m.add_custom_wall s p sc dir len).1 := by
  simp only [Maze.add_custom_wall]
  split_ifs
  · apply foldl_preserve (fun acc : Maze × RandPos => MazeGood acc.1)
    · intro acc i hInv
      exact add_wall_custom_good _ _ _ s _ hInv
    · exact hm
  · apply foldl_preserve (fun acc : Maze × RandPos => MazeGood acc.1)
    · intro acc i hInv
      exact add_wall_custom_good _ _ _ s _ hInv
    · exact hm
  · exact hm

theorem place_one_wall_good (s : RandStream) :
    ∀ (fuel : ℕ) (maze : Maze) (ex : List Rect) (p : RandPos), MazeGood maze →
      MazeGood (place_one_wall maze ex s fuel p).1 := by
  intro fuel
  induction fuel with
  | zero => intro maze ex p h; exact h
  | succ f ih =>
    intro maze ex p h
    simp only [place_one_wall]
    split_ifs with hc
    · exact ih maze ex _ h
    · exact add_custom_wall_good s _ _ _ _ h

theorem generate_random_walls_good (maze : Maze) (n : ℕ) (s : RandStream)
    (p : RandPos) (hm : MazeGood maze) :
    MazeGood (generate_random_walls maze n s p).1 := by
  simp only [generate_random_walls]
  apply foldl_preserve (fun acc : Maze × List Rect × RandPos => MazeGood acc.1)
  · intro acc i hInv
    exact place_one_wall_good s 100 acc.1 acc.2.1 acc.2.2 hInv
  · exact hm

theorem forall₂_mem_right {α β : Type} {R : α → β → Prop} {l : List α} {l' : List β}
    (h : List.Forall₂ R l l') : ∀ b ∈ l', ∃ a ∈ l, R a b := by
  induction h with
  | nil => simp
  | cons hR hrest ih =>
    intro b hb
    rcases List.mem_cons.mp hb with rfl | hb
    · exact ⟨_, by simp, hR⟩
    · obtain ⟨a, ha, hab⟩ := ih b hb
      exact ⟨a, by simp [ha], hab⟩

/-- Loading a save of a maze whose names are good yields a maze whose names
are good, with the counter preserved. -/
theorem load_of_save_good {m m0 : Maze} {robot : Option Robot} {s : RandStream}
    {p : RandPos} {m' : Maze} {p' : RandPos} (hm : MazeGood m)
    (hok : Maze.load_maze m0 (Maze.save_maze m robot) s p = .ok (m', p')) :
    MazeGood m' ∧ m'.wall_id_counter = m.wall_id_counter := by
  obtain ⟨out, cw, config', p2, heq, hrel, hemp⟩ := load_of_save m m0 robot s p
  rw [hok] at heq
  have hpair := Except.ok.inj heq
  have hm'eq : m' = { m0 with size := m.size, scale := m.scale,
                              wall_height := m.wall_height,
                              wall_length := m.wall_length,
                              maze_size := m.maze_size,
                              center_position := m.center_position,
                              wall_id_counter := m.wall_id_counter,
                              config := config', obstacles := out,
                              custom_walls := cw } := congrArg Prod.fst hpair
  subst hm'eq
  refine ⟨⟨?_, ?_⟩, rfl⟩
  · intro o' ho'
    obtain ⟨o, ho, hR⟩ := forall₂_mem_right hrel o' ho'
    obtain ⟨-, -, -, -, rid, -, -, hname⟩ := hR
    have hdata : o'.name.data = o.name.data ++ ('_' :: natChars rid) := by
      rw [hname, strData_append, strData_append, List.append_assoc]
      rfl
    rw [hdata]
    exact goodName_append (hm.1 o ho) _
  · rw [hemp hm.2]

/-- The mazes reachable through the script's maze-building API: built by
the constructor, then extended by custom walls, markers, random wall
generation, or a save/load round trip. -/
inductive Maze.Reachable : Maze → Prop
  | init (config : Config) (size : ℕ) (scale wall_height wall_length floor_size : ℚ)
      (center_position : ℚ × ℚ) (s : RandStream) (p : RandPos) :
      Maze.Reachable (Maze.init config size scale wall_height wall_length floor_size
        center_position s p).1
  | custom (m : Maze) (s : RandStream) (p : RandPos) (sc : ℚ × ℚ) (dir : String)
      (len : ℕ) : Maze.Reachable m → Maze.Reachable (m.add_custom_wall s p sc dir len).1
  | goal (m : Maze) (coord : ℚ × ℚ) (s : RandStream) (p : RandPos) :
      Maze.Reachable m → Maze.Reachable (m.add_goal_object coord s p).1
  | final (m : Maze) (coord : ℚ × ℚ) (s : RandStream) (p : RandPos) :
      Maze.Reachable m → Maze.Reachable (m.add_final_object coord s p).1
  | gen (m : Maze) (n : ℕ) (s : RandStream) (p : RandPos) :
      Maze.Reachable m → Maze.Reachable (generate_random_walls m n s p).1
  | load (m m0 : Maze) (robot : Option Robot) (s : RandStream) (p : RandPos)
      (m' : Maze) (p' : RandPos) : Maze.Reachable m →
      Maze.load_maze m0 (Maze.save_maze m robot) s p = .ok (m', p') →
      Maze.Reachable m'

theorem reachable_good {m : Maze} (h : Maze.Reachable m) : MazeGood m := by
  induction h with
  | init config size scale wall_height wall_length floor_size center_position s p =>
      exact init_good config size scale wall_height wall_length floor_size
        center_position s p
  | custom m s p sc dir len _ ih => exact add_custom_wall_good s p sc dir len ih
  | goal m coord s p _ ih => exact add_goal_good coord s p ih
  | final m coord s p _ ih => exact add_final_good coord s p ih
  | gen m n s p _ ih => exact generate_random_walls_good m n s p ih
  | load m m0 robot s p m' p' _ hok ih => exact (load_of_save_good ih hok).1

/-- Counterexample to C5 as literally stated: build a size-0 maze, add one
custom wall (named `custom_wall_9_1000`, counter ends at 11), save it, and
load it.  The counter after load is 11, but the numeric suffix of the
custom wall's name — the trailing digit run, which is the random 4-digit
uniquifier — is 1000, which the counter does not exceed.  (The test below
filters the loaded obstacles to those with a `custom_wall_` name and checks
the claimed bound; the result is `false`.) -/
theorem C5_wall_id_counter_counterexample :
    ((Maze.load_maze mInit0.1 (Maze.save_maze mCustom.1 none) sZero pZero).toOption.map
      (fun r => (r.1.obstacles.filter (fun o => isCustomName o.name)).all
        (fun o => decide (trailingNat o.name < r.1.wall_id_counter))))
      = some false := by
  decide

/-- **C5 (amended).** For every maze reachable through the script's maze
operations, loading a save of it restores the wall-id counter to exactly
its save-time value, and that counter strictly exceeds the wall-id
component embedded in every custom wall name (the number directly
following `custom_wall_`).  The trailing numeric suffix of such a name is
the random 4-digit disambiguator appended by `Obstacle.__init__`, which
the counter does not bound — that is the piece the original claim gets
wrong. -/
theorem C5_wall_id_counter (m m0 : Maze) (robot : Option Robot) (s : RandStream)
    (p : RandPos) (hm : Maze.Reachable m) :
    ∃ m' p', Maze.load_maze m0 (Maze.save_maze m robot) s p = .ok (m', p') ∧
      m'.wall_id_counter = m.wall_id_counter ∧ NameIdBound m' := by
  obtain ⟨out, cw, config', p2, heq, hrel, hemp⟩ := load_of_save m m0 robot s p
  obtain ⟨hgood, hcounter⟩ := load_of_save_good (reachable_good hm) heq
  refine ⟨_, _, heq, hcounter, ?_, ?_⟩
  · intro o ho k rest hdec
    exact goodName_bound (hgood.1 o ho) k rest hdec
  · intro kv hkv
    rw [hgood.2] at hkv
    simp at hkv

/-- Witness for the amended C5 at a concrete reachable maze: the size-0
maze with one committed custom wall. -/
theorem C5_wall_id_counter_witness :
    ∃ m' p', Maze.load_maze mInit0.1 (Maze.save_maze mCustom.1 none) sZero pZero
        = .ok (m', p') ∧ m'.wall_id_counter = mCustom.1.wall_id_counter ∧
      NameIdBound m' :=
  C5_wall_id_counter mCustom.1 mInit0.1 none sZero pZero
    (Maze.Reachable.custom mInit0.1 sZero mInit0.2 (0, 0) "horizontal" 1
      (Maze.Reachable.init [] 0 1 1 1 20 (0, 0) sZero pZero))
